import Mathlib

/-!
Verification of the Mediterranean surf-alert scoring pipeline
(`surf_alert_email.py` / `surf_alert.py` / `config.py`).

The Python code is shallowly embedded: physical quantities (heights,
periods, directions, speeds, scores) are exact rationals, possibly-absent
values are `Option ℚ`, Python exceptions (`KeyError`, `IndexError`) are an
explicit `Except` error channel, and `round(x, 1)` is half-even rounding
to one decimal place.
-/

set_option maxRecDepth 4000
set_option linter.unusedVariables false

namespace SurfAlert

/-- Half-even ("banker's") rounding of a rational to the nearest integer,
modelling Python's built-in `round`. -/
def roundHalfEven (q : ℚ) : ℤ :=
  if q - ⌊q⌋ < 1/2 then ⌊q⌋
  else if 1/2 < q - ⌊q⌋ then ⌊q⌋ + 1
  else if ⌊q⌋ % 2 = 0 then ⌊q⌋ else ⌊q⌋ + 1

/-- Python's `round(q, 1)`: round to one decimal place, ties to even. -/
def roundTo1 (q : ℚ) : ℚ :=
  (roundHalfEven (10 * q) : ℚ) / 10

/-! ### Configuration constants (`config.py`, `surf_alert_email.py`) -/

/-- Wave height alert threshold in meters (config.py). -/
def SURF_THRESHOLD : ℚ := 0.5

/-- Minimum quality score (0-100) to trigger an alert. -/
def MIN_QUALITY_SCORE : ℚ := 50

/-- E to ESE, the primary swell directions for the spot. -/
def OPTIMAL_SWELL_DIRECTIONS : List ℚ := [90, 100, 110, 120, 130]

/-- W to NW, the offshore wind directions for the spot. -/
def OFFSHORE_WIND_DIRECTIONS : List ℚ := [270, 280, 290, 300, 310, 320, 330]

/-! ### Daylight filter and the five sub-score functions -/

/-- `is_daylight(hour, sunrise, sunset)`: when either bound is `None` the
Python code returns `True` ("If can't calculate, include all hours"). -/
def is_daylight (hour : ℕ) (sunrise sunset : Option ℚ) : Bool :=
  match sunrise, sunset with
  | some r, some s => decide (r ≤ (hour : ℚ) ∧ (hour : ℚ) < s)
  | _, _ => true

/-- `score_wave_period`: banded score, absent period defaults to 30. -/
def score_wave_period (period : Option ℚ) : ℚ :=
  match period with
  | none => 30
  | some p =>
    if p < 3 then 10
    else if p < 4 then 30
    else if p < 5 then 50
    else if p < 6 then 70
    else if p < 7 then 85
    else if p < 9 then 92
    else 97

/-- `score_wind_direction(wind_dir, wave_dir)`: the `wave_dir` argument is
accepted but unused by the Python body. -/
def score_wind_direction (wind_dir wave_dir : Option ℚ) : ℚ :=
  match wind_dir with
  | none => 50
  | some wd =>
    if OFFSHORE_WIND_DIRECTIONS.any (fun d => decide (|wd - d| < 30)) then 100
    else if 330 < wd ∨ wd < 30 ∨ (240 < wd ∧ wd < 270) then 80
    else if (30 < wd ∧ wd < 80) ∨ (180 < wd ∧ wd < 240) then 60
    else if 80 < wd ∧ wd < 150 then 30
    else 50

/-- `score_wind_speed`: banded score, decreasing with speed. -/
def score_wind_speed (wind_speed : Option ℚ) : ℚ :=
  match wind_speed with
  | none => 50
  | some s =>
    if s < 5 then 95
    else if s < 10 then 90
    else if s < 15 then 75
    else if s < 20 then 60
    else if s < 25 then 40
    else 20

/-- `score_swell_direction`: nested angular bands around E-ESE. -/
def score_swell_direction (wave_dir : Option ℚ) : ℚ :=
  match wave_dir with
  | none => 50
  | some d =>
    if 85 < d ∧ d < 135 then 100
    else if 70 < d ∧ d < 150 then 85
    else if 50 < d ∧ d < 170 then 65
    else if 30 < d ∧ d < 180 then 40
    else 20

/-- `score_wave_height`: 0 below 0.2 m, rising to 95, then back down. -/
def score_wave_height (height : Option ℚ) : ℚ :=
  match height with
  | none => 0
  | some h =>
    if h < 0.2 then 0
    else if h < 0.4 then 30
    else if h < 0.6 then 60
    else if h < 0.9 then 80
    else if h < 1.2 then 90
    else if h < 1.8 then 95
    else if h < 2.5 then 90
    else 70

/-- The fixed-weight combination of the five sub-scores
(period 45%, height 30%, swell direction 15%, wind direction 7%,
wind speed 3%), written in the source's operand order. -/
def weighted_combination (height_score period_score swell_dir_score wind_dir_score wind_speed_score : ℚ) : ℚ :=
  period_score * 0.45 + height_score * 0.30 + swell_dir_score * 0.15 +
    wind_dir_score * 0.07 + wind_speed_score * 0.03

/-- `calculate_surf_quality(wave_height, wave_period, wave_direction,
wind_speed, wind_direction)`: sub-scores, the small-wave hard floor, the
weighted combination, the synergy bonus/penalty cascade, then rounding to
one decimal and clamping at 100. -/
def calculate_surf_quality (wave_height wave_period wave_direction wind_speed wind_direction : Option ℚ) : ℚ :=
  let height_score := score_wave_height wave_height
  let period_score := score_wave_period wave_period
  let wind_dir_score := score_wind_direction wind_direction wave_direction
  let wind_speed_score := score_wind_speed wind_speed
  let swell_dir_score := score_swell_direction wave_direction
  if height_score < 30 then
    height_score
  else
    let quality := weighted_combination height_score period_score swell_dir_score wind_dir_score wind_speed_score
    let quality2 :=
      match wave_height, wave_period with
      | some h, some p =>
        if 6 ≤ p ∧ 0.8 ≤ h then quality * 1.10
        else if 5.5 ≤ p ∧ 1.0 ≤ h then quality * 1.05
        else if p < 4.5 ∧ h < 0.7 then quality * 0.85
        else quality
      | _, _ => quality
    min (roundTo1 quality2) 100

/-! ### Forecast data model and `analyze_forecast` (surf_alert_email.py)

The raw response's `hourly` dictionary holds a time axis and parallel
arrays.  Every array key may be absent (`Option` on the list) and every
array element may be `null` (`Option` on the element).  A parsed ISO
timestamp is reduced to its calendar day and hour, the only parts the
analysis reads. -/

/-- The calendar day and local hour of one forecast timestamp. -/
structure Timestamp where
  day : ℤ
  hour : ℕ
deriving DecidableEq, Repr

/-- The Python exceptions the analysis can raise. -/
inductive PyError where
  | keyError
  | indexError
deriving DecidableEq, Repr

/-- The `hourly` dictionary of the merged forecast response. -/
structure Hourly where
  time : Option (List Timestamp)
  wave_height : Option (List (Option ℚ))
  wave_direction : Option (List (Option ℚ))
  wave_period : Option (List (Option ℚ))
  wind_speed_10m : Option (List (Option ℚ))
  wind_direction_10m : Option (List (Option ℚ))
deriving DecidableEq, Repr

/-- One entry of the `alerts` list. -/
structure AlertEntry where
  time : Timestamp
  wave_height : ℚ
  wave_direction : Option ℚ
  wave_period : Option ℚ
  wind_speed : Option ℚ
  wind_direction : Option ℚ
  quality_score : ℚ
deriving DecidableEq, Repr

/-- One entry of the diagnostic `all_scores` list, with its breakdown. -/
structure ScoreEntry where
  time : Timestamp
  wave_height : ℚ
  wave_period : Option ℚ
  wave_direction : Option ℚ
  wind_speed : Option ℚ
  wind_direction : Option ℚ
  quality_score : ℚ
  height_score : ℚ
  period_score : ℚ
  swell_dir_score : ℚ
  wind_dir_score : ℚ
  wind_speed_score : ℚ
  above_wave_threshold : Bool
deriving DecidableEq, Repr

/-- The mutable loop state of `analyze_forecast`'s hour loop. -/
structure LoopState where
  alerts : List AlertEntry
  all_scores : List ScoreEntry
  max_quality : ℚ
  max_wave_height : ℚ
deriving DecidableEq, Repr

/-- The per-day result dictionary `analyze_forecast` builds. -/
structure Report where
  date : ℤ
  max_wave_height : ℚ
  max_quality : ℚ
  sunrise : Option ℚ
  sunset : Option ℚ
  alerts : List AlertEntry
  all_scores : List ScoreEntry
deriving DecidableEq, Repr

/-- The values `analyze_forecast` fixes before its hour loop. -/
structure Ctx where
  tomorrow : ℤ
  sunrise : Option ℚ
  sunset : Option ℚ
  wave_heights : List (Option ℚ)
  wave_directions : Option (List (Option ℚ))
  wave_periods : Option (List (Option ℚ))
  wind_speeds : Option (List (Option ℚ))
  wind_directions : Option (List (Option ℚ))
deriving DecidableEq, Repr

/-- Reading element `i` of an optional parallel array:
`arr[i] if i < len(arr) else None`, with a missing array standing for
`[None] * len(times)`. -/
def optField (arr : Option (List (Option ℚ))) (i : ℕ) : Option ℚ :=
  match arr with
  | none => none
  | some l => l.getD i none

/-- The dictionary appended to `alerts` for a qualifying hour. -/
def mkAlert (t : Timestamp) (hv : ℚ) (wp wd ws wdir : Option ℚ) : AlertEntry :=
  { time := t
    wave_height := hv
    wave_direction := wd
    wave_period := wp
    wind_speed := ws
    wind_direction := wdir
    quality_score := calculate_surf_quality (some hv) wp wd ws wdir }

/-- The dictionary appended to `all_scores` for every evaluated hour. -/
def mkScore (t : Timestamp) (hv : ℚ) (wp wd ws wdir : Option ℚ) : ScoreEntry :=
  { time := t
    wave_height := hv
    wave_period := wp
    wave_direction := wd
    wind_speed := ws
    wind_direction := wdir
    quality_score := calculate_surf_quality (some hv) wp wd ws wdir
    height_score := score_wave_height (some hv)
    period_score := score_wave_period wp
    swell_dir_score := score_swell_direction wd
    wind_dir_score := score_wind_direction wdir wd
    wind_speed_score := score_wind_speed ws
    above_wave_threshold := decide (SURF_THRESHOLD ≤ hv) }

/-- One iteration of the hour loop: `continue` for hours of the wrong day
or outside daylight, `IndexError` when the mandatory wave-height array
does not reach index `i`, skip hours with `null` wave height, otherwise
update maxima (threshold-gated), `all_scores`, and (threshold- and
quality-gated) `alerts`. -/
def stepHour (c : Ctx) (t : Timestamp) (i : ℕ) (st : LoopState) : Except PyError LoopState :=
  if t.day = c.tomorrow then
    if is_daylight t.hour c.sunrise c.sunset then
      match c.wave_heights[i]? with
      | none => .error .indexError
      | some whOpt =>
        match whOpt with
        | none => .ok st
        | some wave_height =>
          let wave_dir := optField c.wave_directions i
          let wave_per := optField c.wave_periods i
          let wind_spd := optField c.wind_speeds i
          let wind_dir := optField c.wind_directions i
          let quality := calculate_surf_quality (some wave_height) wave_per wave_dir wind_spd wind_dir
          let st1 :=
            if SURF_THRESHOLD ≤ wave_height then
              { st with max_wave_height := max st.max_wave_height wave_height
                        max_quality := max st.max_quality quality }
            else st
          let st2 := { st1 with all_scores := st1.all_scores ++ [mkScore t wave_height wave_per wave_dir wind_spd wind_dir] }
          if SURF_THRESHOLD ≤ wave_height ∧ MIN_QUALITY_SCORE ≤ quality then
            .ok { st2 with alerts := st2.alerts ++ [mkAlert t wave_height wave_per wave_dir wind_spd wind_dir] }
          else
            .ok st2
    else
      .ok st
  else
    .ok st

/-- The hour loop of `analyze_forecast`, indexed from `i`. -/
def processHours (c : Ctx) : List Timestamp → ℕ → LoopState → Except PyError LoopState
  | [], _, st => .ok st
  | t :: rest, i, st =>
    match stepHour c t i st with
    | .error e => .error e
    | .ok st' => processHours c rest (i + 1) st'

/-- The loop context `analyze_forecast` fixes from its inputs. -/
def mkCtx (tomorrow : ℤ) (sr ss : Option ℚ) (whs : List (Option ℚ))
    (owd owp ows owdir : Option (List (Option ℚ))) : Ctx :=
  { tomorrow := tomorrow
    sunrise := sr
    sunset := ss
    wave_heights := whs
    wave_directions := owd
    wave_periods := owp
    wind_speeds := ows
    wind_directions := owdir }

/-- `analyze_forecast(data)` of `surf_alert_email.py`, parameterized by
`tomorrow` and the computed sunrise/sunset pair.  Returns `.ok none` for
the Python `return None` paths, `.error` for an uncaught `KeyError` /
`IndexError`. -/
def analyze_forecast (tomorrow : ℤ) (sunrise sunset : Option ℚ) (data : Option Hourly) :
    Except PyError (Option Report) :=
  match data with
  | none => .ok none
  | some hourly =>
    match hourly.time with
    | none => .error .keyError
    | some times =>
      match hourly.wave_height with
      | none => .error .keyError
      | some wave_heights =>
        let c : Ctx := mkCtx tomorrow sunrise sunset wave_heights
          hourly.wave_direction hourly.wave_period hourly.wind_speed_10m hourly.wind_direction_10m
        match processHours c times 0 ⟨[], [], 0, 0⟩ with
        | .error e => .error e
        | .ok st =>
          if st.alerts = [] ∧ st.all_scores = [] then
            .ok none
          else
            .ok (some
              { date := tomorrow
                max_wave_height := st.max_wave_height
                max_quality := st.max_quality
                sunrise := sunrise
                sunset := sunset
                alerts := st.alerts
                all_scores := st.all_scores })

/-! ### Specification-side maxima fold (for the maxima-tracking claim) -/

/-- How one hour is allowed to affect the (max height, max quality) pair:
only a tomorrow, daylight, covered, non-null hour whose height reaches
`SURF_THRESHOLD` updates either maximum. -/
def maxStep (c : Ctx) (t : Timestamp) (i : ℕ) (p : ℚ × ℚ) : ℚ × ℚ :=
  if t.day = c.tomorrow ∧ is_daylight t.hour c.sunrise c.sunset = true then
    match c.wave_heights[i]? with
    | some (some hv) =>
      if SURF_THRESHOLD ≤ hv then
        (max p.1 hv,
         max p.2 (calculate_surf_quality (some hv) (optField c.wave_periods i)
           (optField c.wave_directions i) (optField c.wind_speeds i) (optField c.wind_directions i)))
      else p
    | _ => p
  else p

/-- Folding `maxStep` over the time axis from index `i`. -/
def maxFold (c : Ctx) : List Timestamp → ℕ → ℚ × ℚ → ℚ × ℚ
  | [], _, p => p
  | t :: rest, i, p => maxFold c rest (i + 1) (maxStep c t i p)

/-- The quality score of hour `i` with wave height `hv`, as computed
inside the loop. -/
def qOf (c : Ctx) (i : ℕ) (hv : ℚ) : ℚ :=
  calculate_surf_quality (some hv) (optField c.wave_periods i)
    (optField c.wave_directions i) (optField c.wind_speeds i) (optField c.wind_directions i)

/-- The alert entry the loop builds for hour `i` with wave height `hv`. -/
def alertOf (c : Ctx) (t : Timestamp) (i : ℕ) (hv : ℚ) : AlertEntry :=
  mkAlert t hv (optField c.wave_periods i) (optField c.wave_directions i)
    (optField c.wind_speeds i) (optField c.wind_directions i)

/-- The diagnostic entry the loop builds for hour `i` with wave height `hv`. -/
def scoreOf (c : Ctx) (t : Timestamp) (i : ℕ) (hv : ℚ) : ScoreEntry :=
  mkScore t hv (optField c.wave_periods i) (optField c.wave_directions i)
    (optField c.wind_speeds i) (optField c.wind_directions i)

/-! ### The simple variant (`surf_alert.py`)

`surf_alert.py`'s `analyze_forecast` has no daylight filter and no quality
score: it tracks the maximum over ALL defined wave heights of the day, and
alerts on every hour whose height reaches the threshold.  A report is
returned only when the alert list is nonempty. -/

/-- One alert dictionary of `surf_alert.py` (a `none` field models the
`'N/A'` placeholder the code substitutes). -/
structure SimpleAlert where
  time : Timestamp
  wave_height : ℚ
  wave_direction : Option ℚ
  wave_period : Option ℚ
  wind_speed : Option ℚ
  wind_direction : Option ℚ
deriving DecidableEq, Repr

/-- The result dictionary of `surf_alert.py`'s `analyze_forecast`. -/
structure SimpleReport where
  date : ℤ
  max_wave_height : ℚ
  alerts : List SimpleAlert
deriving DecidableEq, Repr

/-- The loop state of `surf_alert.py`'s hour loop. -/
structure SimpleState where
  alerts : List SimpleAlert
  max_wave_height : ℚ
deriving DecidableEq, Repr

/-- The alert dictionary `surf_alert.py` appends for hour `i`. -/
def mkSimpleAlert (c : Ctx) (t : Timestamp) (i : ℕ) (hv : ℚ) : SimpleAlert :=
  { time := t
    wave_height := hv
    wave_direction := optField c.wave_directions i
    wave_period := optField c.wave_periods i
    wind_speed := optField c.wind_speeds i
    wind_direction := optField c.wind_directions i }

/-- One iteration of `surf_alert.py`'s loop: the maximum is updated for
EVERY defined height of the day, the alert only for heights at the
threshold. -/
def stepSimple (c : Ctx) (t : Timestamp) (i : ℕ) (st : SimpleState) : Except PyError SimpleState :=
  if t.day = c.tomorrow then
    match c.wave_heights[i]? with
    | none => .error .indexError
    | some none => .ok st
    | some (some hv) =>
      let st1 : SimpleState := { st with max_wave_height := max st.max_wave_height hv }
      if SURF_THRESHOLD ≤ hv then
        .ok { st1 with alerts := st1.alerts ++ [mkSimpleAlert c t i hv] }
      else
        .ok st1
  else
    .ok st

/-- The hour loop of `surf_alert.py`'s `analyze_forecast`. -/
def processSimple (c : Ctx) : List Timestamp → ℕ → SimpleState → Except PyError SimpleState
  | [], _, st => .ok st
  | t :: rest, i, st =>
    match stepSimple c t i st with
    | .error e => .error e
    | .ok st' => processSimple c rest (i + 1) st'

/-- `analyze_forecast(data)` of `surf_alert.py`: returns the report only
when at least one alert exists, `None` otherwise. -/
def analyze_forecast_simple (tomorrow : ℤ) (data : Option Hourly) :
    Except PyError (Option SimpleReport) :=
  match data with
  | none => .ok none
  | some hourly =>
    match hourly.time with
    | none => .error .keyError
    | some times =>
      match hourly.wave_height with
      | none => .error .keyError
      | some wave_heights =>
        let c : Ctx := mkCtx tomorrow none none wave_heights
          hourly.wave_direction hourly.wave_period hourly.wind_speed_10m hourly.wind_direction_10m
        match processSimple c times 0 ⟨[], 0⟩ with
        | .error e => .error e
        | .ok st =>
          if st.alerts = [] then .ok none
          else .ok (some { date := tomorrow, max_wave_height := st.max_wave_height, alerts := st.alerts })

/-- Specification-side fold: the maximum over only the hours of the day
whose defined wave height reaches `SURF_THRESHOLD`. -/
def simpleThrFold (c : Ctx) : List Timestamp → ℕ → ℚ → ℚ
  | [], _, m => m
  | t :: rest, i, m =>
    simpleThrFold c rest (i + 1)
      (if t.day = c.tomorrow then
        match c.wave_heights[i]? with
        | some (some hv) => if SURF_THRESHOLD ≤ hv then max m hv else m
        | _ => m
      else m)

/-! ### Range lemmas for the sub-scores -/

theorem roundHalfEven_nonneg (q : ℚ) (hq : 0 ≤ q) : 0 ≤ roundHalfEven q := by
  have hf : (0 : ℤ) ≤ ⌊q⌋ := Int.floor_nonneg.mpr hq
  unfold roundHalfEven
  split
  · exact hf
  · split
    · omega
    · split
      · exact hf
      · omega

theorem roundHalfEven_le (q : ℚ) : (roundHalfEven q : ℚ) ≤ q + 1/2 := by
  have hf : ((⌊q⌋ : ℤ) : ℚ) ≤ q := Int.floor_le q
  unfold roundHalfEven
  split
  · linarith
  · rename_i h1
    push_neg at h1
    split
    · push_cast; linarith
    · rename_i h2
      push_neg at h2
      split
      · linarith
      · push_cast; linarith

theorem roundTo1_nonneg (q : ℚ) (hq : 0 ≤ q) : 0 ≤ roundTo1 q := by
  have h : (0 : ℤ) ≤ roundHalfEven (10 * q) :=
    roundHalfEven_nonneg _ (by linarith)
  unfold roundTo1
  have h' : (0 : ℚ) ≤ (roundHalfEven (10 * q) : ℚ) := by exact_mod_cast h
  linarith

theorem roundTo1_le (q : ℚ) : roundTo1 q ≤ q + 1/20 := by
  have h := roundHalfEven_le (10 * q)
  unfold roundTo1
  linarith

theorem score_wave_height_bounds (h : Option ℚ) :
    0 ≤ score_wave_height h ∧ score_wave_height h ≤ 100 := by
  cases h with
  | none => norm_num [score_wave_height]
  | some v =>
    simp only [score_wave_height]
    split_ifs <;> norm_num

theorem score_wave_period_bounds (p : Option ℚ) :
    0 ≤ score_wave_period p ∧ score_wave_period p ≤ 100 := by
  cases p with
  | none => norm_num [score_wave_period]
  | some v =>
    simp only [score_wave_period]
    split_ifs <;> norm_num

theorem score_swell_direction_bounds (d : Option ℚ) :
    0 ≤ score_swell_direction d ∧ score_swell_direction d ≤ 100 := by
  cases d with
  | none => norm_num [score_swell_direction]
  | some v =>
    simp only [score_swell_direction]
    split_ifs <;> norm_num

theorem score_wind_direction_bounds (wd wvd : Option ℚ) :
    0 ≤ score_wind_direction wd wvd ∧ score_wind_direction wd wvd ≤ 100 := by
  cases wd with
  | none => norm_num [score_wind_direction]
  | some v =>
    simp only [score_wind_direction]
    split_ifs <;> norm_num

theorem score_wind_speed_bounds (s : Option ℚ) :
    0 ≤ score_wind_speed s ∧ score_wind_speed s ≤ 100 := by
  cases s with
  | none => norm_num [score_wind_speed]
  | some v =>
    simp only [score_wind_speed]
    split_ifs <;> norm_num

theorem weighted_combination_bounds (hs ps ss wds wss : ℚ)
    (h1 : 0 ≤ hs ∧ hs ≤ 100) (h2 : 0 ≤ ps ∧ ps ≤ 100) (h3 : 0 ≤ ss ∧ ss ≤ 100)
    (h4 : 0 ≤ wds ∧ wds ≤ 100) (h5 : 0 ≤ wss ∧ wss ≤ 100) :
    0 ≤ weighted_combination hs ps ss wds wss ∧ weighted_combination hs ps ss wds wss ≤ 100 := by
  obtain ⟨a1, b1⟩ := h1
  obtain ⟨a2, b2⟩ := h2
  obtain ⟨a3, b3⟩ := h3
  obtain ⟨a4, b4⟩ := h4
  obtain ⟨a5, b5⟩ := h5
  unfold weighted_combination
  constructor <;> nlinarith

theorem min100_bounds (X : ℚ) (hX : 0 ≤ X) :
    0 ≤ min (roundTo1 X) 100 ∧ min (roundTo1 X) 100 ≤ 100 :=
  ⟨le_min (roundTo1_nonneg X hX) (by norm_num), min_le_right _ _⟩

theorem calculate_surf_quality_bounds (wh wp wd ws wdir : Option ℚ) :
    0 ≤ calculate_surf_quality wh wp wd ws wdir ∧ calculate_surf_quality wh wp wd ws wdir ≤ 100 := by
  have Hh := score_wave_height_bounds wh
  have Hp := score_wave_period_bounds wp
  have Hs := score_swell_direction_bounds wd
  have Hwd := score_wind_direction_bounds wdir wd
  have Hws := score_wind_speed_bounds ws
  have HW := weighted_combination_bounds _ _ _ _ _ Hh Hp Hs Hwd Hws
  by_cases hfloor : score_wave_height wh < 30
  · simp only [calculate_surf_quality, if_pos hfloor]
    exact Hh
  · simp only [calculate_surf_quality, if_neg hfloor]
    rcases wh with _ | h
    · exact min100_bounds _ HW.1
    · rcases wp with _ | p
      · exact min100_bounds _ HW.1
      · dsimp only
        split_ifs with h1 h2 h3
        · exact min100_bounds _ (by nlinarith [HW.1])
        · exact min100_bounds _ (by nlinarith [HW.1])
        · exact min100_bounds _ (by nlinarith [HW.1])
        · exact min100_bounds _ HW.1

/-! ### Case analysis of one loop iteration -/

theorem stepHour_not_tomorrow (c : Ctx) (t : Timestamp) (i : ℕ) (st : LoopState)
    (h : ¬ t.day = c.tomorrow) : stepHour c t i st = .ok st := by
  simp [stepHour, h]

theorem stepHour_not_daylight (c : Ctx) (t : Timestamp) (i : ℕ) (st : LoopState)
    (h : is_daylight t.hour c.sunrise c.sunset = false) : stepHour c t i st = .ok st := by
  simp [stepHour, h]

theorem stepHour_oob (c : Ctx) (t : Timestamp) (i : ℕ) (st : LoopState)
    (hday : t.day = c.tomorrow) (hdl : is_daylight t.hour c.sunrise c.sunset = true)
    (hget : c.wave_heights[i]? = none) : stepHour c t i st = .error .indexError := by
  simp [stepHour, hday, hdl, hget]

theorem stepHour_null (c : Ctx) (t : Timestamp) (i : ℕ) (st : LoopState)
    (hday : t.day = c.tomorrow) (hdl : is_daylight t.hour c.sunrise c.sunset = true)
    (hget : c.wave_heights[i]? = some none) : stepHour c t i st = .ok st := by
  simp [stepHour, hday, hdl, hget]

theorem stepHour_some (c : Ctx) (t : Timestamp) (i : ℕ) (st : LoopState) (hv : ℚ)
    (hday : t.day = c.tomorrow) (hdl : is_daylight t.hour c.sunrise c.sunset = true)
    (hget : c.wave_heights[i]? = some (some hv)) :
    stepHour c t i st = .ok
      { alerts := if SURF_THRESHOLD ≤ hv ∧ MIN_QUALITY_SCORE ≤ qOf c i hv
          then st.alerts ++ [alertOf c t i hv] else st.alerts
        all_scores := st.all_scores ++ [scoreOf c t i hv]
        max_quality := if SURF_THRESHOLD ≤ hv
          then max st.max_quality (qOf c i hv) else st.max_quality
        max_wave_height := if SURF_THRESHOLD ≤ hv
          then max st.max_wave_height hv else st.max_wave_height } := by
  simp only [stepHour, hday, hdl, hget, if_true, ite_true]
  simp only [qOf, alertOf, scoreOf]
  split_ifs with h1 h2 h3 <;> rfl

/-! ### Invariants of the hour loop -/

theorem stepHour_sub (c : Ctx) (t : Timestamp) (i : ℕ) (st st1 : LoopState)
    (h : stepHour c t i st = .ok st1) :
    (∀ e, e ∈ st.alerts → e ∈ st1.alerts) ∧ (∀ e, e ∈ st.all_scores → e ∈ st1.all_scores) := by
  by_cases hday : t.day = c.tomorrow
  · cases hdl : is_daylight t.hour c.sunrise c.sunset with
    | false =>
      rw [stepHour_not_daylight c t i st hdl] at h
      cases h
      exact ⟨fun _ hx => hx, fun _ hx => hx⟩
    | true =>
      cases hget : c.wave_heights[i]? with
      | none => rw [stepHour_oob c t i st hday hdl hget] at h; cases h
      | some whOpt =>
        cases whOpt with
        | none =>
          rw [stepHour_null c t i st hday hdl hget] at h
          cases h
          exact ⟨fun _ hx => hx, fun _ hx => hx⟩
        | some hv =>
          rw [stepHour_some c t i st hv hday hdl hget] at h
          cases h
          refine ⟨fun e he => ?_, fun e he => ?_⟩
          · by_cases hc : SURF_THRESHOLD ≤ hv ∧ MIN_QUALITY_SCORE ≤ qOf c i hv
            · simp only [if_pos hc, List.mem_append]
              exact Or.inl he
            · simp only [if_neg hc]
              exact he
          · simp only [List.mem_append]
            exact Or.inl he
  · rw [stepHour_not_tomorrow c t i st hday] at h
    cases h
    exact ⟨fun _ hx => hx, fun _ hx => hx⟩

theorem processHours_mono (c : Ctx) (l : List Timestamp) :
    ∀ (i : ℕ) (st st' : LoopState), processHours c l i st = .ok st' →
      (∀ e, e ∈ st.alerts → e ∈ st'.alerts) ∧ (∀ e, e ∈ st.all_scores → e ∈ st'.all_scores) := by
  induction l with
  | nil =>
    intro i st st' hok
    cases hok
    exact ⟨fun _ hx => hx, fun _ hx => hx⟩
  | cons t rest ih =>
    intro i st st' hok
    simp only [processHours] at hok
    cases hstep : stepHour c t i st with
    | error e => rw [hstep] at hok; cases hok
    | ok st1 =>
      rw [hstep] at hok
      have hmono := ih (i + 1) st1 st' hok
      have hsub := stepHour_sub c t i st st1 hstep
      exact ⟨fun e he => hmono.1 e (hsub.1 e he), fun e he => hmono.2 e (hsub.2 e he)⟩

theorem stepHour_alerts_sound (c : Ctx) (t : Timestamp) (i : ℕ) (st st1 : LoopState)
    (h : stepHour c t i st = .ok st1) :
    ∀ e, e ∈ st1.alerts → e ∈ st.alerts ∨
      (SURF_THRESHOLD ≤ e.wave_height ∧ MIN_QUALITY_SCORE ≤ e.quality_score) := by
  by_cases hday : t.day = c.tomorrow
  · cases hdl : is_daylight t.hour c.sunrise c.sunset with
    | false =>
      rw [stepHour_not_daylight c t i st hdl] at h
      cases h
      exact fun e he => Or.inl he
    | true =>
      cases hget : c.wave_heights[i]? with
      | none => rw [stepHour_oob c t i st hday hdl hget] at h; cases h
      | some whOpt =>
        cases whOpt with
        | none =>
          rw [stepHour_null c t i st hday hdl hget] at h
          cases h
          exact fun e he => Or.inl he
        | some hv =>
          rw [stepHour_some c t i st hv hday hdl hget] at h
          cases h
          intro e he
          by_cases hc : SURF_THRESHOLD ≤ hv ∧ MIN_QUALITY_SCORE ≤ qOf c i hv
          · rw [if_pos hc] at he
            rcases List.mem_append.mp he with hin | hnew
            · exact Or.inl hin
            · right
              have he' : e = alertOf c t i hv := List.mem_singleton.mp hnew
              subst he'
              exact ⟨hc.1, hc.2⟩
          · rw [if_neg hc] at he
            exact Or.inl he
  · rw [stepHour_not_tomorrow c t i st hday] at h
    cases h
    exact fun e he => Or.inl he

theorem processHours_alerts_sound (c : Ctx) (l : List Timestamp) :
    ∀ (i : ℕ) (st st' : LoopState), processHours c l i st = .ok st' →
      ∀ e, e ∈ st'.alerts → e ∈ st.alerts ∨
        (SURF_THRESHOLD ≤ e.wave_height ∧ MIN_QUALITY_SCORE ≤ e.quality_score) := by
  induction l with
  | nil =>
    intro i st st' hok
    cases hok
    exact fun e he => Or.inl he
  | cons t rest ih =>
    intro i st st' hok
    simp only [processHours] at hok
    cases hstep : stepHour c t i st with
    | error e => rw [hstep] at hok; cases hok
    | ok st1 =>
      rw [hstep] at hok
      intro e he
      rcases ih (i + 1) st1 st' hok e he with hin | hgood
      · exact stepHour_alerts_sound c t i st st1 hstep e hin
      · exact Or.inr hgood

theorem processHours_alerts_complete (c : Ctx) (l : List Timestamp) :
    ∀ (i : ℕ) (st st' : LoopState), processHours c l i st = .ok st' →
      ∀ (j : ℕ) (t : Timestamp) (hv : ℚ), l[j]? = some t →
        t.day = c.tomorrow → is_daylight t.hour c.sunrise c.sunset = true →
        c.wave_heights[i + j]? = some (some hv) →
        SURF_THRESHOLD ≤ hv → MIN_QUALITY_SCORE ≤ qOf c (i + j) hv →
        alertOf c t (i + j) hv ∈ st'.alerts := by
  induction l with
  | nil =>
    intro i st st' hok j t hv hj
    simp at hj
  | cons t0 rest ih =>
    intro i st st' hok j t hv hj hday hdl hget hthr hq
    simp only [processHours] at hok
    cases hstep : stepHour c t0 i st with
    | error e => rw [hstep] at hok; cases hok
    | ok st1 =>
      rw [hstep] at hok
      cases j with
      | zero =>
        have ht0 : t = t0 := by simpa using hj.symm
        subst ht0
        rw [Nat.add_zero] at hget hq ⊢
        rw [stepHour_some c t i st hv hday hdl hget] at hstep
        cases hstep
        refine (processHours_mono c rest (i + 1) _ st' hok).1 _ ?_
        dsimp only
        rw [if_pos (And.intro hthr hq)]
        exact List.mem_append_right _ (List.mem_singleton.mpr rfl)
      | succ j' =>
        have hj' : rest[j']? = some t := by simpa using hj
        have harith : i + (j' + 1) = (i + 1) + j' := by omega
        rw [harith] at hget hq ⊢
        exact ih (i + 1) st1 st' hok j' t hv hj' hday hdl hget hthr hq

theorem processHours_scores_complete (c : Ctx) (l : List Timestamp) :
    ∀ (i : ℕ) (st st' : LoopState), processHours c l i st = .ok st' →
      ∀ (j : ℕ) (t : Timestamp) (hv : ℚ), l[j]? = some t →
        t.day = c.tomorrow → is_daylight t.hour c.sunrise c.sunset = true →
        c.wave_heights[i + j]? = some (some hv) →
        scoreOf c t (i + j) hv ∈ st'.all_scores := by
  induction l with
  | nil =>
    intro i st st' hok j t hv hj
    simp at hj
  | cons t0 rest ih =>
    intro i st st' hok j t hv hj hday hdl hget
    simp only [processHours] at hok
    cases hstep : stepHour c t0 i st with
    | error e => rw [hstep] at hok; cases hok
    | ok st1 =>
      rw [hstep] at hok
      cases j with
      | zero =>
        have ht0 : t = t0 := by simpa using hj.symm
        subst ht0
        rw [Nat.add_zero] at hget ⊢
        rw [stepHour_some c t i st hv hday hdl hget] at hstep
        have hmem : scoreOf c t i hv ∈ st1.all_scores := by
          cases hstep
          simp only [List.mem_append]
          exact Or.inr (List.mem_singleton.mpr rfl)
        exact (processHours_mono c rest (i + 1) st1 st' hok).2 _ hmem
      | succ j' =>
        have hj' : rest[j']? = some t := by simpa using hj
        have harith : i + (j' + 1) = (i + 1) + j' := by omega
        rw [harith] at hget ⊢
        exact ih (i + 1) st1 st' hok j' t hv hj' hday hdl hget

theorem stepHour_maxes (c : Ctx) (t : Timestamp) (i : ℕ) (st st1 : LoopState)
    (h : stepHour c t i st = .ok st1) :
    (st1.max_wave_height, st1.max_quality) = maxStep c t i (st.max_wave_height, st.max_quality) := by
  by_cases hday : t.day = c.tomorrow
  · cases hdl : is_daylight t.hour c.sunrise c.sunset with
    | false =>
      rw [stepHour_not_daylight c t i st hdl] at h
      cases h
      simp [maxStep, hdl]
    | true =>
      cases hget : c.wave_heights[i]? with
      | none => rw [stepHour_oob c t i st hday hdl hget] at h; cases h
      | some whOpt =>
        cases whOpt with
        | none =>
          rw [stepHour_null c t i st hday hdl hget] at h
          cases h
          simp [maxStep, hday, hdl, hget]
        | some hv =>
          rw [stepHour_some c t i st hv hday hdl hget] at h
          cases h
          by_cases hthr : SURF_THRESHOLD ≤ hv
          · simp [maxStep, hday, hdl, hget, hthr, qOf]
          · simp [maxStep, hday, hdl, hget, hthr]
  · rw [stepHour_not_tomorrow c t i st hday] at h
    cases h
    simp [maxStep, hday]

theorem processHours_maxes (c : Ctx) (l : List Timestamp) :
    ∀ (i : ℕ) (st st' : LoopState), processHours c l i st = .ok st' →
      (st'.max_wave_height, st'.max_quality) = maxFold c l i (st.max_wave_height, st.max_quality) := by
  induction l with
  | nil =>
    intro i st st' hok
    cases hok
    rfl
  | cons t rest ih =>
    intro i st st' hok
    simp only [processHours] at hok
    cases hstep : stepHour c t i st with
    | error e => rw [hstep] at hok; cases hok
    | ok st1 =>
      rw [hstep] at hok
      calc (st'.max_wave_height, st'.max_quality)
          = maxFold c rest (i + 1) (st1.max_wave_height, st1.max_quality) := ih (i + 1) st1 st' hok
        _ = maxFold c rest (i + 1) (maxStep c t i (st.max_wave_height, st.max_quality)) := by
              rw [stepHour_maxes c t i st st1 hstep]
        _ = maxFold c (t :: rest) i (st.max_wave_height, st.max_quality) := rfl

theorem stepHour_ok_of_lt (c : Ctx) (t : Timestamp) (i : ℕ) (st : LoopState)
    (hlt : i < c.wave_heights.length) : ∃ st1, stepHour c t i st = .ok st1 := by
  by_cases hday : t.day = c.tomorrow
  · cases hdl : is_daylight t.hour c.sunrise c.sunset with
    | false => exact ⟨st, stepHour_not_daylight c t i st hdl⟩
    | true =>
      cases hget : c.wave_heights[i]? with
      | none =>
        have := List.getElem?_eq_none_iff.mp hget
        omega
      | some whOpt =>
        cases whOpt with
        | none => exact ⟨st, stepHour_null c t i st hday hdl hget⟩
        | some hv => exact ⟨_, stepHour_some c t i st hv hday hdl hget⟩
  · exact ⟨st, stepHour_not_tomorrow c t i st hday⟩

theorem processHours_ok_of_cov (c : Ctx) (l : List Timestamp) :
    ∀ (i : ℕ) (st : LoopState), i + l.length ≤ c.wave_heights.length →
      ∃ st', processHours c l i st = .ok st' := by
  induction l with
  | nil => exact fun i st _ => ⟨st, rfl⟩
  | cons t rest ih =>
    intro i st hcov
    simp only [List.length_cons] at hcov
    obtain ⟨st1, hstep⟩ := stepHour_ok_of_lt c t i st (by omega)
    obtain ⟨st', hrest⟩ := ih (i + 1) st1 (by omega)
    refine ⟨st', ?_⟩
    simp only [processHours, hstep]
    exact hrest

theorem stepHour_error (c : Ctx) (t : Timestamp) (i : ℕ) (st : LoopState) (e : PyError)
    (h : stepHour c t i st = .error e) :
    t.day = c.tomorrow ∧ is_daylight t.hour c.sunrise c.sunset = true ∧
      c.wave_heights.length ≤ i := by
  by_cases hday : t.day = c.tomorrow
  · cases hdl : is_daylight t.hour c.sunrise c.sunset with
    | false => rw [stepHour_not_daylight c t i st hdl] at h; cases h
    | true =>
      cases hget : c.wave_heights[i]? with
      | none => exact ⟨hday, rfl, List.getElem?_eq_none_iff.mp hget⟩
      | some whOpt =>
        cases whOpt with
        | none => rw [stepHour_null c t i st hday hdl hget] at h; cases h
        | some hv => rw [stepHour_some c t i st hv hday hdl hget] at h; cases h
  · rw [stepHour_not_tomorrow c t i st hday] at h; cases h

theorem processHours_error (c : Ctx) (l : List Timestamp) :
    ∀ (i : ℕ) (st : LoopState) (e : PyError), processHours c l i st = .error e →
      ∃ j t, l[j]? = some t ∧ t.day = c.tomorrow ∧
        is_daylight t.hour c.sunrise c.sunset = true ∧ c.wave_heights.length ≤ i + j := by
  induction l with
  | nil =>
    intro i st e h
    simp only [processHours] at h
    cases h
  | cons t rest ih =>
    intro i st e h
    simp only [processHours] at h
    cases hstep : stepHour c t i st with
    | error e' =>
      obtain ⟨hday, hdl, hlen⟩ := stepHour_error c t i st e' hstep
      refine ⟨0, t, ?_, hday, hdl, by omega⟩
      simp
    | ok st1 =>
      rw [hstep] at h
      obtain ⟨j, t', hj, hday, hdl, hlen⟩ := ih (i + 1) st1 e h
      exact ⟨j + 1, t', by simpa using hj, hday, hdl, by omega⟩

/-! ### Inversion of `analyze_forecast` -/

theorem analyze_forecast_ok_some (tomorrow : ℤ) (sr ss : Option ℚ) (times : List Timestamp)
    (whs : List (Option ℚ)) (owd owp ows owdir : Option (List (Option ℚ))) (r : Report)
    (hres : analyze_forecast tomorrow sr ss
      (some ⟨some times, some whs, owd, owp, ows, owdir⟩) = .ok (some r)) :
    ∃ st, processHours (mkCtx tomorrow sr ss whs owd owp ows owdir) times 0 ⟨[], [], 0, 0⟩ = .ok st ∧
      r.alerts = st.alerts ∧ r.all_scores = st.all_scores ∧
      r.max_wave_height = st.max_wave_height ∧ r.max_quality = st.max_quality := by
  simp only [analyze_forecast] at hres
  split at hres
  · cases hres
  · rename_i st heq
    by_cases hemp : st.alerts = [] ∧ st.all_scores = []
    · rw [if_pos hemp] at hres
      cases hres
    · rw [if_neg hemp] at hres
      cases hres
      exact ⟨st, heq, rfl, rfl, rfl, rfl⟩

/-! ### Invariants of the simple variant's loop -/

theorem simpleThrFold_le (c : Ctx) (l : List Timestamp) :
    ∀ (i : ℕ) (m : ℚ), m ≤ simpleThrFold c l i m := by
  induction l with
  | nil => intro i m; exact le_refl m
  | cons t rest ih =>
    intro i m
    simp only [simpleThrFold]
    refine le_trans ?_ (ih (i + 1) _)
    by_cases hday : t.day = c.tomorrow
    · rcases hw : c.wave_heights[i]? with _ | whOpt
      · simp [hday, hw]
      · rcases whOpt with _ | hv
        · simp [hday, hw]
        · simp only [if_pos hday, hw]
          by_cases hthr : SURF_THRESHOLD ≤ hv
          · rw [if_pos hthr]; exact le_max_left m hv
          · rw [if_neg hthr]
    · rw [if_neg hday]

theorem simpleThrFold_cases (c : Ctx) (l : List Timestamp) :
    ∀ (i : ℕ) (m : ℚ),
      simpleThrFold c l i m = m ∨ SURF_THRESHOLD ≤ simpleThrFold c l i m := by
  induction l with
  | nil => intro i m; exact Or.inl rfl
  | cons t rest ih =>
    intro i m
    simp only [simpleThrFold]
    by_cases hday : t.day = c.tomorrow
    · rcases hw : c.wave_heights[i]? with _ | whOpt
      · simpa [hday, hw] using ih (i + 1) m
      · rcases whOpt with _ | hv
        · simpa [hday, hw] using ih (i + 1) m
        · simp only [if_pos hday, hw]
          by_cases hthr : SURF_THRESHOLD ≤ hv
          · rw [if_pos hthr]
            right
            exact le_trans (le_trans hthr (le_max_right m hv))
              (simpleThrFold_le c rest (i + 1) _)
          · rw [if_neg hthr]
            exact ih (i + 1) m
    · rw [if_neg hday]
      exact ih (i + 1) m

theorem simpleThrFold_max (c : Ctx) (l : List Timestamp) :
    ∀ (i : ℕ) (a b : ℚ),
      simpleThrFold c l i (max a b) = max a (simpleThrFold c l i b) := by
  induction l with
  | nil => intro i a b; rfl
  | cons t rest ih =>
    intro i a b
    simp only [simpleThrFold]
    by_cases hday : t.day = c.tomorrow
    · rcases hw : c.wave_heights[i]? with _ | whOpt
      · simp only [if_pos hday, hw]
        exact ih (i + 1) a b
      · rcases whOpt with _ | hv
        · simp only [if_pos hday, hw]
          exact ih (i + 1) a b
        · simp only [if_pos hday, hw]
          by_cases hthr : SURF_THRESHOLD ≤ hv
          · rw [if_pos hthr, if_pos hthr, max_assoc]
            exact ih (i + 1) a (max b hv)
          · rw [if_neg hthr, if_neg hthr]
            exact ih (i + 1) a b
    · rw [if_neg hday, if_neg hday]
      exact ih (i + 1) a b

theorem stepSimple_not_tomorrow (c : Ctx) (t : Timestamp) (i : ℕ) (st : SimpleState)
    (h : ¬ t.day = c.tomorrow) : stepSimple c t i st = .ok st := by
  simp [stepSimple, h]

theorem stepSimple_oob (c : Ctx) (t : Timestamp) (i : ℕ) (st : SimpleState)
    (hday : t.day = c.tomorrow) (hget : c.wave_heights[i]? = none) :
    stepSimple c t i st = .error .indexError := by
  simp [stepSimple, hday, hget]

theorem stepSimple_null (c : Ctx) (t : Timestamp) (i : ℕ) (st : SimpleState)
    (hday : t.day = c.tomorrow) (hget : c.wave_heights[i]? = some none) :
    stepSimple c t i st = .ok st := by
  simp [stepSimple, hday, hget]

theorem stepSimple_some (c : Ctx) (t : Timestamp) (i : ℕ) (st : SimpleState) (hv : ℚ)
    (hday : t.day = c.tomorrow) (hget : c.wave_heights[i]? = some (some hv)) :
    stepSimple c t i st = .ok
      { alerts := if SURF_THRESHOLD ≤ hv
          then st.alerts ++ [mkSimpleAlert c t i hv] else st.alerts
        max_wave_height := max st.max_wave_height hv } := by
  simp only [stepSimple, hday, hget, if_true, ite_true]
  split_ifs with h1 <;> rfl

theorem processSimple_max_mono (c : Ctx) (l : List Timestamp) :
    ∀ (i : ℕ) (st st' : SimpleState), processSimple c l i st = .ok st' →
      st.max_wave_height ≤ st'.max_wave_height := by
  induction l with
  | nil =>
    intro i st st' hok
    cases hok
    exact le_refl _
  | cons t rest ih =>
    intro i st st' hok
    simp only [processSimple] at hok
    cases hstep : stepSimple c t i st with
    | error e => rw [hstep] at hok; cases hok
    | ok st1 =>
      rw [hstep] at hok
      refine le_trans ?_ (ih (i + 1) st1 st' hok)
      by_cases hday : t.day = c.tomorrow
      · rcases hw : c.wave_heights[i]? with _ | whOpt
        · rw [stepSimple_oob c t i st hday hw] at hstep; cases hstep
        · rcases whOpt with _ | hv
          · rw [stepSimple_null c t i st hday hw] at hstep
            cases hstep
            exact le_refl _
          · rw [stepSimple_some c t i st hv hday hw] at hstep
            cases hstep
            exact le_max_left _ _
      · rw [stepSimple_not_tomorrow c t i st hday] at hstep
        cases hstep
        exact le_refl _

theorem stepSimple_alerts_sound (c : Ctx) (t : Timestamp) (i : ℕ) (st st1 : SimpleState)
    (h : stepSimple c t i st = .ok st1) :
    ∀ a, a ∈ st1.alerts → a ∈ st.alerts ∨
      (SURF_THRESHOLD ≤ a.wave_height ∧ a.wave_height ≤ st1.max_wave_height) := by
  by_cases hday : t.day = c.tomorrow
  · rcases hw : c.wave_heights[i]? with _ | whOpt
    · rw [stepSimple_oob c t i st hday hw] at h; cases h
    · rcases whOpt with _ | hv
      · rw [stepSimple_null c t i st hday hw] at h
        cases h
        exact fun a ha => Or.inl ha
      · rw [stepSimple_some c t i st hv hday hw] at h
        cases h
        intro a ha
        by_cases hthr : SURF_THRESHOLD ≤ hv
        · rw [if_pos hthr] at ha
          rcases List.mem_append.mp ha with hin | hnew
          · exact Or.inl hin
          · have ha' : a = mkSimpleAlert c t i hv := List.mem_singleton.mp hnew
            subst ha'
            exact Or.inr ⟨hthr, le_max_right _ _⟩
        · rw [if_neg hthr] at ha
          exact Or.inl ha
  · rw [stepSimple_not_tomorrow c t i st hday] at h
    cases h
    exact fun a ha => Or.inl ha

theorem processSimple_alerts_sound (c : Ctx) (l : List Timestamp) :
    ∀ (i : ℕ) (st st' : SimpleState), processSimple c l i st = .ok st' →
      ∀ a, a ∈ st'.alerts → a ∈ st.alerts ∨
        (SURF_THRESHOLD ≤ a.wave_height ∧ a.wave_height ≤ st'.max_wave_height) := by
  induction l with
  | nil =>
    intro i st st' hok
    cases hok
    exact fun a ha => Or.inl ha
  | cons t rest ih =>
    intro i st st' hok a ha
    simp only [processSimple] at hok
    cases hstep : stepSimple c t i st with
    | error e => rw [hstep] at hok; cases hok
    | ok st1 =>
      rw [hstep] at hok
      rcases ih (i + 1) st1 st' hok a ha with hin | hgood
      · rcases stepSimple_alerts_sound c t i st st1 hstep a hin with hin0 | hgood0
        · exact Or.inl hin0
        · exact Or.inr ⟨hgood0.1,
            le_trans hgood0.2 (processSimple_max_mono c rest (i + 1) st1 st' hok)⟩
      · exact Or.inr hgood

theorem processSimple_max_inv (c : Ctx) (l : List Timestamp) :
    ∀ (i : ℕ) (st st' : SimpleState), processSimple c l i st = .ok st' →
      st'.max_wave_height = simpleThrFold c l i st.max_wave_height ∨
      (st'.max_wave_height < SURF_THRESHOLD ∧
        simpleThrFold c l i st.max_wave_height = st.max_wave_height) := by
  induction l with
  | nil =>
    intro i st st' hok
    cases hok
    exact Or.inl rfl
  | cons t rest ih =>
    intro i st st' hok
    simp only [processSimple] at hok
    cases hstep : stepSimple c t i st with
    | error e => rw [hstep] at hok; cases hok
    | ok st1 =>
      rw [hstep] at hok
      by_cases hday : t.day = c.tomorrow
      · rcases hw : c.wave_heights[i]? with _ | whOpt
        · rw [stepSimple_oob c t i st hday hw] at hstep; cases hstep
        · rcases whOpt with _ | hv
          · rw [stepSimple_null c t i st hday hw] at hstep
            cases hstep
            simpa [simpleThrFold, hday, hw] using ih (i + 1) st st' hok
          · have hst1 : st1.max_wave_height = max st.max_wave_height hv := by
              rw [stepSimple_some c t i st hv hday hw] at hstep
              cases hstep
              rfl
            have hrec := ih (i + 1) st1 st' hok
            rw [hst1] at hrec
            simp only [simpleThrFold, if_pos hday, hw]
            by_cases hthr : SURF_THRESHOLD ≤ hv
            · rw [if_pos hthr]
              rcases hrec with h1 | h2
              · exact Or.inl h1
              · exfalso
                have hmono := processSimple_max_mono c rest (i + 1) st1 st' hok
                rw [hst1] at hmono
                have : SURF_THRESHOLD ≤ st'.max_wave_height :=
                  le_trans (le_trans hthr (le_max_right _ _)) hmono
                linarith [h2.1]
            · rw [if_neg hthr]
              have hvlt : hv < SURF_THRESHOLD := lt_of_not_le hthr
              have hswap : simpleThrFold c rest (i + 1) (max st.max_wave_height hv) =
                  max hv (simpleThrFold c rest (i + 1) st.max_wave_height) := by
                rw [max_comm st.max_wave_height hv]
                exact simpleThrFold_max c rest (i + 1) hv st.max_wave_height
              rcases hrec with h1 | h2
              · rw [hswap] at h1
                rcases simpleThrFold_cases c rest (i + 1) st.max_wave_height with hc | hc
                · rw [hc] at h1
                  by_cases hcmp : hv ≤ st.max_wave_height
                  · rw [max_eq_right hcmp] at h1
                    rw [hc]
                    exact Or.inl h1
                  · right
                    refine ⟨?_, hc⟩
                    rw [h1, max_eq_left (le_of_not_le hcmp)]
                    exact hvlt
                · rw [max_eq_right (le_trans hvlt.le hc)] at h1
                  exact Or.inl h1
              · right
                refine ⟨h2.1, ?_⟩
                have h22 := h2.2
                rw [hswap] at h22
                rcases simpleThrFold_cases c rest (i + 1) st.max_wave_height with hc | hc
                · exact hc
                · rw [max_eq_right (le_trans hvlt.le hc)] at h22
                  by_cases hcmp : hv ≤ st.max_wave_height
                  · rw [max_eq_left hcmp] at h22
                    exact h22
                  · exfalso
                    rw [max_eq_right (le_of_not_le hcmp)] at h22
                    rw [h22] at hc
                    linarith
      · rw [stepSimple_not_tomorrow c t i st hday] at hstep
        cases hstep
        simpa [simpleThrFold, hday] using ih (i + 1) st st' hok

theorem analyze_simple_ok_some (tomorrow : ℤ) (times : List Timestamp)
    (whs : List (Option ℚ)) (owd owp ows owdir : Option (List (Option ℚ))) (r' : SimpleReport)
    (hres : analyze_forecast_simple tomorrow
      (some ⟨some times, some whs, owd, owp, ows, owdir⟩) = .ok (some r')) :
    ∃ st, processSimple (mkCtx tomorrow none none whs owd owp ows owdir) times 0 ⟨[], 0⟩ = .ok st ∧
      r'.alerts = st.alerts ∧ r'.max_wave_height = st.max_wave_height ∧ st.alerts ≠ [] := by
  simp only [analyze_forecast_simple] at hres
  split at hres
  · cases hres
  · rename_i st heq
    by_cases hemp : st.alerts = []
    · rw [if_pos hemp] at hres
      cases hres
    · rw [if_neg hemp] at hres
      cases hres
      exact ⟨st, heq, rfl, rfl, hemp⟩

theorem simple_reported_max (tomorrow : ℤ) (times : List Timestamp)
    (whs : List (Option ℚ)) (owd owp ows owdir : Option (List (Option ℚ))) (r' : SimpleReport)
    (hres : analyze_forecast_simple tomorrow
      (some ⟨some times, some whs, owd, owp, ows, owdir⟩) = .ok (some r')) :
    r'.max_wave_height =
      simpleThrFold (mkCtx tomorrow none none whs owd owp ows owdir) times 0 0 := by
  obtain ⟨st, hps, hal, hmax, hne⟩ :=
    analyze_simple_ok_some tomorrow times whs owd owp ows owdir r' hres
  obtain ⟨a, ha⟩ := List.exists_mem_of_ne_nil st.alerts hne
  rcases processSimple_alerts_sound _ times 0 ⟨[], 0⟩ st hps a ha with h0 | hgood
  · simp at h0
  · rcases processSimple_max_inv _ times 0 ⟨[], 0⟩ st hps with h1 | h2
    · rw [hmax, h1]
    · exfalso
      have : SURF_THRESHOLD ≤ st.max_wave_height := le_trans hgood.1 hgood.2
      linarith [h2.1]

end SurfAlert

namespace SurfAlert

/-- C1: in `calculate_surf_quality`, the synergy bonuses and the weak-chop
penalty are mutually exclusive alternatives in priority order — ×1.10 when
period ≥ 6 and height ≥ 0.8, else ×1.05 when period ≥ 5.5 and height ≥ 1.0,
else ×0.85 when period < 4.5 and height < 0.7, else no multiplier — and the
final quality is the adjusted weighted combination rounded to one decimal
and clamped at 100. -/
theorem synergy_rules_first_match (h p : ℚ) (wd ws wdir : Option ℚ) (W : ℚ)
    (hfloor : ¬ score_wave_height (some h) < 30)
    (hW : W = weighted_combination (score_wave_height (some h)) (score_wave_period (some p))
      (score_swell_direction wd) (score_wind_direction wdir wd) (score_wind_speed ws)) :
    ((6 ≤ p ∧ 0.8 ≤ h) →
        calculate_surf_quality (some h) (some p) wd ws wdir = min (roundTo1 (W * 1.10)) 100) ∧
    (¬(6 ≤ p ∧ 0.8 ≤ h) → (5.5 ≤ p ∧ 1.0 ≤ h) →
        calculate_surf_quality (some h) (some p) wd ws wdir = min (roundTo1 (W * 1.05)) 100) ∧
    (¬(6 ≤ p ∧ 0.8 ≤ h) → ¬(5.5 ≤ p ∧ 1.0 ≤ h) → (p < 4.5 ∧ h < 0.7) →
        calculate_surf_quality (some h) (some p) wd ws wdir = min (roundTo1 (W * 0.85)) 100) ∧
    (¬(6 ≤ p ∧ 0.8 ≤ h) → ¬(5.5 ≤ p ∧ 1.0 ≤ h) → ¬(p < 4.5 ∧ h < 0.7) →
        calculate_surf_quality (some h) (some p) wd ws wdir = min (roundTo1 W) 100) := by
  subst hW
  simp only [calculate_surf_quality, if_neg hfloor]
  refine ⟨fun hc => ?_, fun h1 hc => ?_, fun h1 h2 hc => ?_, fun h1 h2 h3 => ?_⟩
  · rw [if_pos hc]
  · rw [if_neg h1, if_pos hc]
  · rw [if_neg h1, if_neg h2, if_pos hc]
  · rw [if_neg h1, if_neg h2, if_neg h3]

/-- Witness for C1 at height 1 m, period 6.2 s: the ×1.10 rule fires. -/
theorem synergy_rules_first_match_witness :
    calculate_surf_quality (some 1) (some 6.2) none none none =
      min (roundTo1 (weighted_combination (score_wave_height (some 1)) (score_wave_period (some 6.2))
        (score_swell_direction none) (score_wind_direction none none) (score_wind_speed none) * 1.10)) 100 :=
  (synergy_rules_first_match 1 6.2 none none none _
    (by norm_num [score_wave_height]) rfl).1 (by norm_num)

/-- C2: any absent or sub-0.2 m wave height scores 0, and whenever the
height score is below 30, `calculate_surf_quality` returns exactly the
height score, skipping the weighted combination and all adjustments. -/
theorem height_floor_dominates (h wp wd ws wdir : Option ℚ) :
    ((h = none ∨ ∃ x, h = some x ∧ x < 0.2) → score_wave_height h = 0) ∧
    (score_wave_height h < 30 → calculate_surf_quality h wp wd ws wdir = score_wave_height h) := by
  constructor
  · rintro (rfl | ⟨x, rfl, hx⟩)
    · rfl
    · simp only [score_wave_height]
      rw [if_pos hx]
  · intro hlt
    simp only [calculate_surf_quality]
    rw [if_pos hlt]

/-- Witness for C2 at height 0.1 m. -/
theorem height_floor_dominates_witness :
    score_wave_height (some 0.1) = 0 ∧
    calculate_surf_quality (some 0.1) none none none none = score_wave_height (some 0.1) :=
  ⟨(height_floor_dominates (some 0.1) none none none none).1 (Or.inr ⟨0.1, rfl, by norm_num⟩),
   (height_floor_dominates (some 0.1) none none none none).2 (by norm_num [score_wave_height])⟩

/-- C3: for every input, each of the five sub-scores and the combined
quality produced by `calculate_surf_quality` lie in [0, 100]. -/
theorem all_scores_in_range (wh wp wd ws wdir : Option ℚ) :
    (0 ≤ score_wave_height wh ∧ score_wave_height wh ≤ 100) ∧
    (0 ≤ score_wave_period wp ∧ score_wave_period wp ≤ 100) ∧
    (0 ≤ score_swell_direction wd ∧ score_swell_direction wd ≤ 100) ∧
    (0 ≤ score_wind_direction wdir wd ∧ score_wind_direction wdir wd ≤ 100) ∧
    (0 ≤ score_wind_speed ws ∧ score_wind_speed ws ≤ 100) ∧
    (0 ≤ calculate_surf_quality wh wp wd ws wdir ∧ calculate_surf_quality wh wp wd ws wdir ≤ 100) :=
  ⟨score_wave_height_bounds wh, score_wave_period_bounds wp, score_swell_direction_bounds wd,
   score_wind_direction_bounds wdir wd, score_wind_speed_bounds ws,
   calculate_surf_quality_bounds wh wp wd ws wdir⟩

/-- C6 counterexample: with the polar-night sentinel (`None`/`None`), the
daylight filter does NOT exclude the hour — `is_daylight` returns `True`
(the code comment says "If can't calculate, include all hours"). -/
theorem is_daylight_none_none_includes : is_daylight 12 none none = true := rfl

/-- C6 amended: when sunrise or sunset is `None` (including the
polar-night sentinel), `is_daylight` returns `True` for every hour, i.e.
the filter includes all hours; only with a valid window does an hour pass
iff it lies within the window. -/
theorem daylight_filter_behavior (hour : ℕ) (sr ss : Option ℚ) :
    ((sr = none ∨ ss = none) → is_daylight hour sr ss = true) ∧
    (∀ r s, is_daylight hour (some r) (some s) = true ↔ (r ≤ (hour : ℚ) ∧ (hour : ℚ) < s)) := by
  constructor
  · rintro (rfl | rfl)
    · rfl
    · cases sr <;> rfl
  · intro r s
    simp [is_daylight]

/-- Witness for the amended C6 at hour 5 with the `None`/`None` sentinel. -/
theorem daylight_filter_behavior_witness : is_daylight 5 none none = true :=
  (daylight_filter_behavior 5 none none).1 (Or.inl rfl)

/-- C10 counterexample: at height 0.1 m with absent period, the quality is
0 (small-wave floor), not the rounded weighted sum 26. -/
theorem period_absent_small_height_cex :
    calculate_surf_quality (some 0.1) none none none none = 0 ∧
    roundTo1 (weighted_combination (score_wave_height (some 0.1)) (score_wave_period none)
      (score_swell_direction none) (score_wind_direction none none) (score_wind_speed none)) = 26 ∧
    (0 : ℚ) ≠ 26 := by
  refine ⟨?_, ?_, by norm_num⟩
  · norm_num [calculate_surf_quality, score_wave_height]
  · norm_num [weighted_combination, score_wave_height, score_wave_period, score_swell_direction,
      score_wind_direction, score_wind_speed, roundTo1, roundHalfEven]

/-- C10 amended: with the wave period absent, no synergy multiplier is
ever applied; if the height score is at least 30 the quality is exactly
the weighted sum rounded to one decimal (the 100-clamp cannot bind since
the default period score caps the sum at 68.5), and otherwise the quality
is exactly the height score. -/
theorem no_adjustment_when_period_absent (h wd ws wdir : Option ℚ) :
    (¬ score_wave_height h < 30 →
      calculate_surf_quality h none wd ws wdir =
        roundTo1 (weighted_combination (score_wave_height h) (score_wave_period none)
          (score_swell_direction wd) (score_wind_direction wdir wd) (score_wind_speed ws))) ∧
    (score_wave_height h < 30 → calculate_surf_quality h none wd ws wdir = score_wave_height h) := by
  constructor
  · intro hfloor
    have Hh := score_wave_height_bounds h
    have Hs := score_swell_direction_bounds wd
    have Hwd := score_wind_direction_bounds wdir wd
    have Hws := score_wind_speed_bounds ws
    have hW : weighted_combination (score_wave_height h) (score_wave_period none)
        (score_swell_direction wd) (score_wind_direction wdir wd) (score_wind_speed ws) ≤ 68.5 := by
      simp only [weighted_combination, score_wave_period]
      nlinarith [Hh.2, Hs.2, Hwd.2, Hws.2]
    have hround := roundTo1_le (weighted_combination (score_wave_height h) (score_wave_period none)
      (score_swell_direction wd) (score_wind_direction wdir wd) (score_wind_speed ws))
    cases h with
    | none =>
      simp only [calculate_surf_quality, if_neg hfloor]
      exact min_eq_left (by linarith [hW, hround])
    | some x =>
      simp only [calculate_surf_quality, if_neg hfloor]
      exact min_eq_left (by linarith [hW, hround])
  · intro hlt
    simp only [calculate_surf_quality]
    rw [if_pos hlt]

/-- Witness for the amended C10 at height 1 m. -/
theorem no_adjustment_when_period_absent_witness :
    calculate_surf_quality (some 1) none none none none =
      roundTo1 (weighted_combination (score_wave_height (some 1)) (score_wave_period none)
        (score_swell_direction none) (score_wind_direction none none) (score_wind_speed none)) :=
  (no_adjustment_when_period_absent (some 1) none none none).1 (by norm_num [score_wave_height])

/-- C4: a daylight hour of the evaluated day with a defined wave height is
a member of the alert list iff its wave height reaches `SURF_THRESHOLD`
and its quality reaches `MIN_QUALITY_SCORE`; failing either threshold
excludes it. -/
theorem alert_membership_iff (tomorrow : ℤ) (sr ss : Option ℚ) (times : List Timestamp)
    (whs : List (Option ℚ)) (owd owp ows owdir : Option (List (Option ℚ))) (r : Report)
    (hres : analyze_forecast tomorrow sr ss
      (some ⟨some times, some whs, owd, owp, ows, owdir⟩) = .ok (some r))
    (i : ℕ) (t : Timestamp) (hv : ℚ)
    (ht : times[i]? = some t) (hday : t.day = tomorrow)
    (hdl : is_daylight t.hour sr ss = true)
    (hh : whs[i]? = some (some hv)) :
    alertOf (mkCtx tomorrow sr ss whs owd owp ows owdir) t i hv ∈ r.alerts ↔
      SURF_THRESHOLD ≤ hv ∧
        MIN_QUALITY_SCORE ≤ qOf (mkCtx tomorrow sr ss whs owd owp ows owdir) i hv := by
  obtain ⟨st, hps, hal, -, -, -⟩ :=
    analyze_forecast_ok_some tomorrow sr ss times whs owd owp ows owdir r hres
  constructor
  · intro hmem
    rw [hal] at hmem
    rcases processHours_alerts_sound _ times 0 ⟨[], [], 0, 0⟩ st hps _ hmem with hin | hgood
    · simp at hin
    · exact ⟨hgood.1, hgood.2⟩
  · rintro ⟨hthr, hq⟩
    rw [hal]
    have hmem := processHours_alerts_complete _ times 0 ⟨[], [], 0, 0⟩ st hps i t hv
      ht hday hdl (by simpa [mkCtx] using hh) hthr (by simpa using hq)
    simpa using hmem

/-- Witness for C4: a solo 1 m hour with absent optional data has quality
53 and passes both thresholds, so it is in the alert list. -/
theorem alert_membership_iff_witness :
    alertOf (mkCtx 0 none none [some 1] none none none none) ⟨0, 12⟩ 0 1 ∈
      ({ date := 0, max_wave_height := 1, max_quality := 53, sunrise := none, sunset := none,
         alerts := [mkAlert ⟨0, 12⟩ 1 none none none none],
         all_scores := [mkScore ⟨0, 12⟩ 1 none none none none] } : Report).alerts ↔
      SURF_THRESHOLD ≤ 1 ∧
        MIN_QUALITY_SCORE ≤ qOf (mkCtx 0 none none [some 1] none none none none) 0 1 :=
  alert_membership_iff 0 none none [⟨0, 12⟩] [some 1] none none none none _
    (by norm_num [analyze_forecast, processHours, stepHour, is_daylight, optField, mkScore,
      mkAlert, mkCtx, calculate_surf_quality, score_wave_height, score_wave_period,
      score_wind_direction, score_wind_speed, score_swell_direction, weighted_combination,
      roundTo1, roundHalfEven, SURF_THRESHOLD, MIN_QUALITY_SCORE, OFFSHORE_WIND_DIRECTIONS])
    0 ⟨0, 12⟩ 1 (by simp) rfl rfl (by simp)

/-- C5: the reported maxima equal a fold that is only allowed to look at
hours whose wave height reaches `SURF_THRESHOLD`; in particular
(`maxStep`) an hour below the wave threshold leaves both maxima unchanged
no matter how high its quality is.  For `surf_alert.py`'s variant —  which
folds the maximum over all defined heights but only reports when an alert
exists — the reported maximum likewise equals the above-threshold-only
fold. -/
theorem maxima_from_threshold_fold (tomorrow : ℤ) (sr ss : Option ℚ) (times : List Timestamp)
    (whs : List (Option ℚ)) (owd owp ows owdir : Option (List (Option ℚ))) (r : Report)
    (hres : analyze_forecast tomorrow sr ss
      (some ⟨some times, some whs, owd, owp, ows, owdir⟩) = .ok (some r)) :
    (r.max_wave_height, r.max_quality) =
      maxFold (mkCtx tomorrow sr ss whs owd owp ows owdir) times 0 (0, 0) ∧
    (∀ (c : Ctx) (t : Timestamp) (i : ℕ) (p : ℚ × ℚ) (hv : ℚ),
      c.wave_heights[i]? = some (some hv) → hv < SURF_THRESHOLD →
      maxStep c t i p = p) ∧
    (∀ r' : SimpleReport, analyze_forecast_simple tomorrow
        (some ⟨some times, some whs, owd, owp, ows, owdir⟩) = .ok (some r') →
      r'.max_wave_height =
        simpleThrFold (mkCtx tomorrow none none whs owd owp ows owdir) times 0 0) := by
  obtain ⟨st, hps, -, -, hmh, hmq⟩ :=
    analyze_forecast_ok_some tomorrow sr ss times whs owd owp ows owdir r hres
  refine ⟨?_, ?_, ?_⟩
  · rw [hmh, hmq]
    exact processHours_maxes _ times 0 ⟨[], [], 0, 0⟩ st hps
  · intro c t i p hv hget hlt
    unfold maxStep
    split_ifs with hcond
    · simp only [hget]
      rw [if_neg (not_le.mpr hlt)]
    · rfl
  · intro r' hres'
    exact simple_reported_max tomorrow times whs owd owp ows owdir r' hres'

/-- Witness for C5: a below-threshold hour (0.45 m) with quality 81 does
not move the maxima past the qualifying hour's (0.55 m, 37.4); the simple
variant reports maximum 0.55 on the same forecast. -/
theorem maxima_from_threshold_fold_witness :
    (((0.55 : ℚ), (37.4 : ℚ)) =
      maxFold (mkCtx 0 none none [some 0.55, some 0.45] (some [none, some 110])
        (some [some 3, some 6.2]) (some [none, some 8]) (some [none, some 300]))
        [⟨0, 10⟩, ⟨0, 11⟩] 0 (0, 0)) ∧
    maxStep (mkCtx 0 none none [some 0.55, some 0.45] (some [none, some 110])
        (some [some 3, some 6.2]) (some [none, some 8]) (some [none, some 300]))
      ⟨0, 11⟩ 1 (0, 0) = (0, 0) ∧
    (0.55 : ℚ) =
      simpleThrFold (mkCtx 0 none none [some 0.55, some 0.45] (some [none, some 110])
        (some [some 3, some 6.2]) (some [none, some 8]) (some [none, some 300]))
        [⟨0, 10⟩, ⟨0, 11⟩] 0 0 := by
  have H := maxima_from_threshold_fold 0 none none [⟨0, 10⟩, ⟨0, 11⟩] [some 0.55, some 0.45]
    (some [none, some 110]) (some [some 3, some 6.2]) (some [none, some 8])
    (some [none, some 300])
    { date := 0, max_wave_height := 0.55, max_quality := 37.4, sunrise := none, sunset := none,
      alerts := [],
      all_scores := [mkScore ⟨0, 10⟩ 0.55 (some 3) none none none,
        mkScore ⟨0, 11⟩ 0.45 (some 6.2) (some 110) (some 8) (some 300)] }
    (by
      norm_num [analyze_forecast, processHours, stepHour, is_daylight, optField, mkScore,
        mkAlert, mkCtx, calculate_surf_quality, score_wave_height, score_wave_period,
        score_wind_direction, score_wind_speed, score_swell_direction, weighted_combination,
        roundTo1, roundHalfEven, SURF_THRESHOLD, MIN_QUALITY_SCORE, OFFSHORE_WIND_DIRECTIONS]
      intro h
      exact (List.cons_ne_nil _ _ h).elim)
  refine ⟨H.1, H.2.1 _ ⟨0, 11⟩ 1 (0, 0) 0.45 (by simp [mkCtx]) (by norm_num [SURF_THRESHOLD]), ?_⟩
  exact H.2.2
    { date := 0, max_wave_height := 0.55,
      alerts := [mkSimpleAlert (mkCtx 0 none none [some 0.55, some 0.45] (some [none, some 110])
        (some [some 3, some 6.2]) (some [none, some 8]) (some [none, some 300])) ⟨0, 10⟩ 0 0.55] }
    (by norm_num [analyze_forecast_simple, processSimple, stepSimple, optField, mkSimpleAlert,
      mkCtx, SURF_THRESHOLD])

/-- C7 counterexample: a present, nonempty wave-height array that is
shorter than the time axis makes the analysis raise `IndexError`, so
failure is not confined to a missing or empty mandatory array. -/
theorem short_wave_height_array_errors :
    analyze_forecast 0 none none
      (some ⟨some [⟨0, 10⟩, ⟨0, 11⟩], some [some 1], none, none, none, none⟩) =
      .error .indexError ∧
    (some [some (1 : ℚ)] : Option (List (Option ℚ))) ≠ none ∧
    ([some (1 : ℚ)] : List (Option ℚ)) ≠ [] := by
  refine ⟨?_, by simp, by simp⟩
  norm_num [analyze_forecast, processHours, stepHour, is_daylight, optField, mkScore,
    mkAlert, mkCtx, calculate_surf_quality, score_wave_height, score_wave_period,
    score_wind_direction, score_wind_speed, score_swell_direction, weighted_combination,
    roundTo1, roundHalfEven, SURF_THRESHOLD, MIN_QUALITY_SCORE, OFFSHORE_WIND_DIRECTIONS]

/-- C7 amended: missing, short, or null-element optional arrays never
cause an error (each affected field is simply absent), and an error occurs
only when the time axis key or the wave-height key is missing, or when the
wave-height array fails to cover an evaluated (tomorrow, daylight) hour;
whenever the wave-height array covers the whole time axis the analysis
returns without error, whatever the optional arrays contain. -/
theorem normalizer_failure_modes (tomorrow : ℤ) (sr ss : Option ℚ) (hourly : Hourly) :
    (∀ e, analyze_forecast tomorrow sr ss (some hourly) = .error e →
      hourly.time = none ∨ hourly.wave_height = none ∨
      ∃ times whs j t, hourly.time = some times ∧ hourly.wave_height = some whs ∧
        times[j]? = some t ∧ t.day = tomorrow ∧ is_daylight t.hour sr ss = true ∧
        whs.length ≤ j) ∧
    (∀ (times : List Timestamp) (whs : List (Option ℚ)) (e : PyError),
      hourly.time = some times → hourly.wave_height = some whs →
      times.length ≤ whs.length →
      analyze_forecast tomorrow sr ss (some hourly) ≠ .error e) := by
  constructor
  · intro e herr
    rcases htime : hourly.time with _ | times
    · exact Or.inl rfl
    · rcases hwh : hourly.wave_height with _ | whs
      · exact Or.inr (Or.inl rfl)
      · simp only [analyze_forecast, htime, hwh] at herr
        split at herr
        · rename_i e0 heq
          obtain ⟨j, t, hj, hday, hdl, hlen⟩ :=
            processHours_error _ times 0 ⟨[], [], 0, 0⟩ e0 heq
          exact Or.inr (Or.inr ⟨times, whs, j, t, rfl, rfl, hj, hday, hdl,
            by simpa [mkCtx] using hlen⟩)
        · rename_i st heq
          by_cases hemp : st.alerts = [] ∧ st.all_scores = []
          · rw [if_pos hemp] at herr
            cases herr
          · rw [if_neg hemp] at herr
            cases herr
  · intro times whs e htime hwh hcov herr
    simp only [analyze_forecast, htime, hwh] at herr
    split at herr
    · rename_i e0 heq
      obtain ⟨st', hok⟩ := processHours_ok_of_cov
        (mkCtx tomorrow sr ss whs hourly.wave_direction hourly.wave_period
          hourly.wind_speed_10m hourly.wind_direction_10m) times 0 ⟨[], [], 0, 0⟩
        (by simpa [mkCtx] using hcov)
      rw [hok] at heq
      cases heq
    · rename_i st heq
      by_cases hemp : st.alerts = [] ∧ st.all_scores = []
      · rw [if_pos hemp] at herr
        cases herr
      · rw [if_neg hemp] at herr
        cases herr

/-- Witness for the amended C7: a covering wave-height array with every
optional array missing analyzes without error. -/
theorem normalizer_failure_modes_witness :
    analyze_forecast 0 none none
      (some ⟨some [⟨0, 12⟩], some [some 1], none, none, none, none⟩) ≠ .error .indexError :=
  (normalizer_failure_modes 0 none none
    ⟨some [⟨0, 12⟩], some [some 1], none, none, none, none⟩).2
    [⟨0, 12⟩] [some 1] .indexError rfl rfl (by norm_num)

/-- C9 counterexample: a well-formed forecast (time axis and wave-height
array both present and nonempty) whose only evaluated hour has a null
wave height yields an absent report even though zero qualifying hours is
supposed to be a present, non-error outcome. -/
theorem absent_report_with_null_height :
    analyze_forecast 0 none none
      (some ⟨some [⟨0, 12⟩], some [none], none, none, none, none⟩) = .ok none ∧
    (some [(none : Option ℚ)] : Option (List (Option ℚ))) ≠ none ∧
    ([⟨0, 12⟩] : List Timestamp) ≠ [] := by
  refine ⟨rfl, by simp, by simp⟩

/-- C9 amended: whenever some daylight hour of the evaluated day has a
defined wave height and the analysis returns without error, the report is
present — even if zero hours qualify for an alert; the absent report is
reserved for malformed data or for days with no evaluated defined-height
hour. -/
theorem present_report_when_hour_evaluated (tomorrow : ℤ) (sr ss : Option ℚ)
    (times : List Timestamp) (whs : List (Option ℚ))
    (owd owp ows owdir : Option (List (Option ℚ)))
    (i : ℕ) (t : Timestamp) (hv : ℚ) (x : Option Report)
    (ht : times[i]? = some t) (hday : t.day = tomorrow)
    (hdl : is_daylight t.hour sr ss = true)
    (hh : whs[i]? = some (some hv))
    (hres : analyze_forecast tomorrow sr ss
      (some ⟨some times, some whs, owd, owp, ows, owdir⟩) = .ok x) :
    x ≠ none := by
  intro hxnone
  subst hxnone
  simp only [analyze_forecast] at hres
  split at hres
  · cases hres
  · rename_i st heq
    have hmem := processHours_scores_complete _ times 0 ⟨[], [], 0, 0⟩ st heq i t hv
      ht hday hdl (by simpa [mkCtx] using hh)
    by_cases hemp : st.alerts = [] ∧ st.all_scores = []
    · rw [hemp.2] at hmem
      exact absurd hmem (List.not_mem_nil _)
    · rw [if_neg hemp] at hres
      cases hres

/-- Witness for the amended C9: a 0.3 m hour (quality 35, no alert) still
produces a present report. -/
theorem present_report_when_hour_evaluated_witness :
    (some { date := 0, max_wave_height := 0, max_quality := 0, sunrise := none,
            sunset := none, alerts := [],
            all_scores := [mkScore ⟨0, 12⟩ 0.3 none none none none] } :
      Option Report) ≠ none :=
  present_report_when_hour_evaluated 0 none none [⟨0, 12⟩] [some 0.3] none none none none
    0 ⟨0, 12⟩ 0.3 _ (by simp) rfl rfl (by simp)
    (by norm_num [analyze_forecast, processHours, stepHour, is_daylight, optField, mkScore,
      mkAlert, mkCtx, calculate_surf_quality, score_wave_height, score_wave_period,
      score_wind_direction, score_wind_speed, score_swell_direction, weighted_combination,
      roundTo1, roundHalfEven, SURF_THRESHOLD, MIN_QUALITY_SCORE, OFFSHORE_WIND_DIRECTIONS])

/-- C8: the end-to-end scenario — height 1.0 m, period 6.2 s, wave
direction 110°, wind 8 km/h from 300° with thresholds 0.5 m / 50 — gives
the expected sub-scores, a combined quality of 98.9 (≥ 90, after the
powerful-combo ×1.10 bonus), and membership in the alert list. -/
theorem end_to_end_scenario :
    SURF_THRESHOLD = 0.5 ∧ MIN_QUALITY_SCORE = 50 ∧
    85 ≤ score_wave_period (some 6.2) ∧
    90 ≤ score_wave_height (some 1.0) ∧
    score_swell_direction (some 110) = 100 ∧
    score_wind_direction (some 300) (some 110) = 100 ∧
    90 ≤ score_wind_speed (some 8) ∧
    calculate_surf_quality (some 1.0) (some 6.2) (some 110) (some 8) (some 300) = 98.9 ∧
    (90 : ℚ) ≤ calculate_surf_quality (some 1.0) (some 6.2) (some 110) (some 8) (some 300) ∧
    analyze_forecast 0 none none
      (some ⟨some [⟨0, 12⟩], some [some 1], some [some 110], some [some 6.2],
        some [some 8], some [some 300]⟩) =
      .ok (some
        { date := 0, max_wave_height := 1, max_quality := 98.9, sunrise := none, sunset := none,
          alerts := [mkAlert ⟨0, 12⟩ 1 (some 6.2) (some 110) (some 8) (some 300)],
          all_scores := [mkScore ⟨0, 12⟩ 1 (some 6.2) (some 110) (some 8) (some 300)] }) ∧
    mkAlert ⟨0, 12⟩ 1 (some 6.2) (some 110) (some 8) (some 300) ∈
      ({ date := 0, max_wave_height := 1, max_quality := 98.9, sunrise := none, sunset := none,
          alerts := [mkAlert ⟨0, 12⟩ 1 (some 6.2) (some 110) (some 8) (some 300)],
          all_scores := [mkScore ⟨0, 12⟩ 1 (some 6.2) (some 110) (some 8) (some 300)] } :
        Report).alerts := by
  refine ⟨rfl, rfl, ?_, ?_, ?_, ?_, ?_, ?_, ?_, ?_, by simp⟩
  · norm_num [score_wave_period]
  · norm_num [score_wave_height]
  · norm_num [score_swell_direction]
  · norm_num [score_wind_direction, OFFSHORE_WIND_DIRECTIONS]
  · norm_num [score_wind_speed]
  · norm_num [calculate_surf_quality, score_wave_height, score_wave_period,
      score_wind_direction, score_wind_speed, score_swell_direction, weighted_combination,
      roundTo1, roundHalfEven, OFFSHORE_WIND_DIRECTIONS]
  · norm_num [calculate_surf_quality, score_wave_height, score_wave_period,
      score_wind_direction, score_wind_speed, score_swell_direction, weighted_combination,
      roundTo1, roundHalfEven, OFFSHORE_WIND_DIRECTIONS]
  · norm_num [analyze_forecast, processHours, stepHour, is_daylight, optField, mkScore,
      mkAlert, mkCtx, calculate_surf_quality, score_wave_height, score_wave_period,
      score_wind_direction, score_wind_speed, score_swell_direction, weighted_combination,
      roundTo1, roundHalfEven, SURF_THRESHOLD, MIN_QUALITY_SCORE, OFFSHORE_WIND_DIRECTIONS]

end SurfAlert
